import Mathlib

/-!
Verification of the project-manifest management and workspace-aware
guardrail aggregation core of uv-guard (src/uv_guard/project.py).

The embedding models:
 * TOML values and the project table's "guardrails" key
   (`local_guardrails`, project.py lines 106-113);
 * the mutable guardrails array helper and the add/remove operations
   (`_mutable_guardrails_array`, `add_guardrail`, `remove_guardrail`,
   project.py lines 164-195), parametrised over the external URI parsing
   function `get_guardrail_id_and_version` (delegated by the source to
   the external guardrails library, hence an opaque collaborator here);
 * the filtering predicate `should_include_self` (lines 84-103);
 * session exit / write-back (`__exit__`, lines 56-64);
 * the recursive workspace traversal `guardrails` (lines 116-160), with
   the filesystem glob resolution abstracted into an explicit tree of
   member manifests.
-/

/-- A TOML value as produced by the document parser: scalars, arrays and
tables.  Mirrors the dynamic value space that `tomlkit` hands back from
`self._project_table.get("guardrails")`. -/
inductive TomlValue : Type where
  | str : String → TomlValue
  | int : Int → TomlValue
  | boolean : Bool → TomlValue
  | arr : List TomlValue → TomlValue
  | table : List (String × TomlValue) → TomlValue

/-- Error kinds named by the specification (section 7). -/
inductive TomlError : Type where
  | typeMismatch : TomlError
deriving DecidableEq

/-- Embedding of `ProjectManager.local_guardrails` (project.py lines
106-113) as a function of the project table's key/value entries.  The
source returns `[]` when the key is absent, the literal contents when the
value is a list or `tomlkit` array, and `[]` on every other value; no
exception is ever raised on any of these paths, which the `Except`
codomain makes visible. -/
def localGuardrails (tbl : List (String × TomlValue)) : Except TomlError (List TomlValue) :=
  match tbl.lookup ("guardrails") with
  | none => Except.ok []
  | some (TomlValue.arr l) => Except.ok l
  | some _ => Except.ok []

/-- The project table as seen by the mutation methods: its `name` entry
and its optional `guardrails` string array. -/
structure GuardTable : Type where
  name : Option String
  guardrails : Option (List String)
deriving DecidableEq

/-- Embedding of `ProjectManager._mutable_guardrails_array` (project.py
lines 164-171): returns the guardrails array, inserting an empty array
into the project table first when the key is absent. -/
def mutableGuardrailsArray (t : GuardTable) : GuardTable × List String :=
  match t.guardrails with
  | none => ({ t with guardrails := some [] }, [])
  | some gs => (t, gs)

/-- The scan-and-update loop of `ProjectManager.add_guardrail`
(project.py lines 177-185) on the guardrails list.  `parse` stands for
the external `get_guardrail_id_and_version`; the second component is the
returned URI. -/
def addGuardrailList (parse : String → String × Option String) (hubUri : String) :
    List String → List String × String
  | [] => ([hubUri], hubUri)
  | g :: gs =>
    if (parse g).1 = (parse hubUri).1 then
      match (parse hubUri).2 with
      | some _ => (hubUri :: gs, hubUri)
      | none => (g :: gs, g)
    else
      let r := addGuardrailList parse hubUri gs
      (g :: r.1, r.2)

/-- Embedding of `ProjectManager.add_guardrail` (project.py lines
173-185): obtains the mutable array (creating it when absent), scans for
an entry with the same parsed identifier, replaces it when the new URI is
versioned, keeps it when not, and appends when no entry matches. -/
def addGuardrail (parse : String → String × Option String) (hubUri : String)
    (t : GuardTable) : GuardTable × String :=
  let m := mutableGuardrailsArray t
  let r := addGuardrailList parse hubUri m.2
  ({ m.1 with guardrails := some r.1 }, r.2)

/-- The scan-and-pop loop of `ProjectManager.remove_guardrail`
(project.py lines 191-195) on the guardrails list: drops the first entry
whose parsed identifier matches and stops there. -/
def removeGuardrailList (parse : String → String × Option String) (hubUri : String) :
    List String → List String
  | [] => []
  | g :: gs =>
    if (parse g).1 = (parse hubUri).1 then gs
    else g :: removeGuardrailList parse hubUri gs

/-- Embedding of `ProjectManager.remove_guardrail` (project.py lines
187-195): obtains the mutable array (creating it when absent) and drops
the first entry whose parsed identifier matches the given URI's. -/
def removeGuardrail (parse : String → String × Option String) (hubUri : String)
    (t : GuardTable) : GuardTable :=
  let m := mutableGuardrailsArray t
  { m.1 with guardrails := some (removeGuardrailList parse hubUri m.2) }

/-- The parsed identifiers of the entries of a guardrails list. -/
def guardrailIds (parse : String → String × Option String) (l : List String) : List String :=
  l.map (fun g => (parse g).1)

/-- Characters that begin a version specifier in a hub URI. -/
def versionDelims : List Char := [':', '>', '<', '=', '~', '!']

/-- Modelled from the spec: the source's `get_guardrail_id_and_version`
(src/uv_guard/package.py) delegates URI parsing to the external
guardrails library, which is not part of this repository.  Following
spec section 4.1, the scheme marker is stripped and a trailing version
specifier (a colon-delimited exact version or a comparison-operator
sequence) is split off; the specifier is absent when nothing follows the
identifier.  Used only to instantiate the parse-parametric theorems. -/
def parseReference (s : String) : String × Option String :=
  let cs := if s.data.take 6 = ("hub://").data then s.data.drop 6 else s.data
  let idPart := cs.takeWhile (fun c => !(versionDelims.contains c))
  let verPart := cs.drop idPart.length
  (String.mk idPart, if verPart.isEmpty then none else some (String.mk verPart))

/-- The per-session state of a `ProjectManager` that the filtering and
traversal logic reads: the constructor arguments of project.py lines
21-46 (the manifest path and loaded document are carried separately). -/
structure Manager : Type where
  readOnly : Bool
  includeAll : Bool
  includePackages : List String
  excludePackages : List String
  includeProject : Bool
  isRoot : Bool
deriving DecidableEq

/-- Python truthiness of the optional `name` value: `None` and the empty
string are falsy, exactly the guard `if name and ...` used by
`should_include_self`. -/
def truthyName : Option String → Bool
  | none => false
  | some s => !s.isEmpty

/-- Embedding of `ProjectManager.should_include_self` (project.py lines
84-103): exclusion first (guarded by truthiness of the name), then the
root check, then `include_all`, then `include_packages` membership
(again guarded by truthiness). -/
def shouldIncludeSelf (m : Manager) (name : Option String) : Bool :=
  if truthyName name && m.excludePackages.contains (name.getD ("")) then false
  else if m.isRoot then m.includeProject
  else if m.includeAll then true
  else truthyName name && m.includePackages.contains (name.getD (""))

/-- The child `ProjectManager` constructed for a workspace member at
project.py lines 148-156: always read-only, never root, and carrying the
parent's filter fields. -/
def childManager (m : Manager) : Manager :=
  { readOnly := true
    includeAll := m.includeAll
    includePackages := m.includePackages
    excludePackages := m.excludePackages
    includeProject := m.includeProject
    isRoot := false }

/-- Embedding of `ProjectManager.__exit__` (project.py lines 56-64):
when an exception is pending or the session is read-only, the disk
contents are left untouched; otherwise the in-memory document is dumped
over the file. -/
def exitSession {Doc Disk : Type} (dump : Doc → Disk) (excPending : Bool)
    (readOnly : Bool) (doc : Doc) (disk : Disk) : Disk :=
  if excPending || readOnly then disk else dump doc

mutual
/-- A workspace manifest tree: a node holds the manifest's project name,
its local guardrails array, and the member manifests its glob patterns
resolve to (existing, non-self members, per project.py lines 132-144). -/
inductive WTree : Type where
  | node : Option String → List String → WForest → WTree
/-- The list of member manifest trees of a workspace node. -/
inductive WForest : Type where
  | nil : WForest
  | cons : WTree → WForest → WForest
end

mutual
/-- Embedding of the `ProjectManager.guardrails` property (project.py
lines 116-160): union the local guardrails when the node passes the
filter, then union the recursively aggregated guardrails of each member,
each visited through the child manager of project.py lines 148-156. -/
def aggregateGuardrails (m : Manager) : WTree → Finset String
  | WTree.node nm locals children =>
    (if shouldIncludeSelf m nm then locals.toFinset else ∅) ∪
      aggregateForest (childManager m) children
/-- Aggregation over a node's member list (the loop of project.py lines
133-158), every member handled by the same child manager. -/
def aggregateForest (child : Manager) : WForest → Finset String
  | WForest.nil => ∅
  | WForest.cons c cs => aggregateGuardrails child c ∪ aggregateForest child cs
end

mutual
/-- The trace of `ProjectManager` instances constructed during the
recursion of the `guardrails` property (project.py lines 147-158): for
every member, the child manager built there followed by the managers its
own recursion builds. -/
def sessionTrace (m : Manager) : WTree → List Manager
  | WTree.node _ _ children => forestTrace (childManager m) children
/-- The constructed-manager trace over a node's member list. -/
def forestTrace (child : Manager) : WForest → List Manager
  | WForest.nil => []
  | WForest.cons c cs => (child :: sessionTrace child c) ++ forestTrace child cs
end

theorem addGuardrail_eq (parse : String → String × Option String) (u : String)
    (t : GuardTable) :
    addGuardrail parse u t =
      ({ name := t.name,
         guardrails := some (addGuardrailList parse u (t.guardrails.getD [])).1 },
       (addGuardrailList parse u (t.guardrails.getD [])).2) := by
  cases t with
  | mk nm gr => cases gr <;> rfl

theorem removeGuardrail_eq (parse : String → String × Option String) (u : String)
    (t : GuardTable) :
    removeGuardrail parse u t =
      { name := t.name,
        guardrails := some (removeGuardrailList parse u (t.guardrails.getD [])) } := by
  cases t with
  | mk nm gr => cases gr <;> rfl

theorem addGuardrailList_replace (parse : String → String × Option String) (u : String) :
    ∀ (l : List String) (i : Nat) (hi : i < l.length),
      (parse (l.get ⟨i, hi⟩)).1 = (parse u).1 →
      (∀ g ∈ l.take i, (parse g).1 ≠ (parse u).1) →
      ((parse u).2.isSome = true → addGuardrailList parse u l = (l.set i u, u)) ∧
        ((parse u).2 = none → addGuardrailList parse u l = (l, l.get ⟨i, hi⟩)) := by
  intro l
  induction l with
  | nil => intro i hi; exact absurd hi (by simp)
  | cons g gs ih =>
    intro i hi hmatch hbefore
    cases i with
    | zero =>
      refine ⟨fun hver => ?_, fun hnone => ?_⟩
      · obtain ⟨v, hv⟩ := Option.isSome_iff_exists.mp hver
        simp only [List.get] at hmatch
        simp only [addGuardrailList, if_pos hmatch, hv]
        simp [List.set]
      · simp only [List.get] at hmatch
        simp only [addGuardrailList, if_pos hmatch, hnone]
        simp [List.get]
    | succ j =>
      have hg : g ∈ (g :: gs).take (j + 1) := by simp [List.take]
      have hne : (parse g).1 ≠ (parse u).1 := hbefore g hg
      have hj : j < gs.length := Nat.lt_of_succ_lt_succ hi
      have hmatch' : (parse (gs.get ⟨j, hj⟩)).1 = (parse u).1 := by
        simpa [List.get] using hmatch
      have hbefore' : ∀ x ∈ gs.take j, (parse x).1 ≠ (parse u).1 := by
        intro x hx
        exact hbefore x (by simp [List.take, hx])
      obtain ⟨hs, hn⟩ := ih j hj hmatch' hbefore'
      refine ⟨fun hver => ?_, fun hnone => ?_⟩
      · simp only [addGuardrailList, if_neg hne, hs hver]
        simp [List.set]
      · simp only [addGuardrailList, if_neg hne, hn hnone]
        simp [List.get]

theorem addGuardrailList_append (parse : String → String × Option String) (u : String) :
    ∀ l : List String, (∀ g ∈ l, (parse g).1 ≠ (parse u).1) →
      addGuardrailList parse u l = (l ++ [u], u) := by
  intro l
  induction l with
  | nil => intro h; rfl
  | cons g gs ih =>
    intro h
    have hne : (parse g).1 ≠ (parse u).1 := h g (by simp)
    have hrest : ∀ x ∈ gs, (parse x).1 ≠ (parse u).1 := fun x hx => h x (by simp [hx])
    simp only [addGuardrailList, if_neg hne, ih hrest]
    simp

theorem removeGuardrailList_erase (parse : String → String × Option String) (u : String) :
    ∀ (l : List String) (i : Nat) (hi : i < l.length),
      (parse (l.get ⟨i, hi⟩)).1 = (parse u).1 →
      (∀ g ∈ l.take i, (parse g).1 ≠ (parse u).1) →
      removeGuardrailList parse u l = l.eraseIdx i := by
  intro l
  induction l with
  | nil => intro i hi; exact absurd hi (by simp)
  | cons g gs ih =>
    intro i hi hmatch hbefore
    cases i with
    | zero =>
      simp only [List.get] at hmatch
      simp only [removeGuardrailList, if_pos hmatch]
      simp [List.eraseIdx]
    | succ j =>
      have hne : (parse g).1 ≠ (parse u).1 := hbefore g (by simp [List.take])
      have hj : j < gs.length := Nat.lt_of_succ_lt_succ hi
      have hmatch' : (parse (gs.get ⟨j, hj⟩)).1 = (parse u).1 := by
        simpa [List.get] using hmatch
      have hbefore' : ∀ x ∈ gs.take j, (parse x).1 ≠ (parse u).1 := by
        intro x hx
        exact hbefore x (by simp [List.take, hx])
      simp only [removeGuardrailList, if_neg hne, ih j hj hmatch' hbefore']
      simp [List.eraseIdx]

theorem removeGuardrailList_no_match (parse : String → String × Option String) (u : String) :
    ∀ l : List String, (∀ g ∈ l, (parse g).1 ≠ (parse u).1) →
      removeGuardrailList parse u l = l := by
  intro l
  induction l with
  | nil => intro h; rfl
  | cons g gs ih =>
    intro h
    have hne : (parse g).1 ≠ (parse u).1 := h g (by simp)
    simp only [removeGuardrailList, if_neg hne, ih (fun x hx => h x (by simp [hx]))]

theorem mem_addGuardrailList_fst (parse : String → String × Option String) (u : String) :
    ∀ (l : List String) (x : String), x ∈ (addGuardrailList parse u l).1 → x = u ∨ x ∈ l := by
  intro l
  induction l with
  | nil => intro x hx; simpa [addGuardrailList] using hx
  | cons g gs ih =>
    intro x hx
    by_cases hg : (parse g).1 = (parse u).1
    · cases hv : (parse u).2 with
      | none =>
        simp only [addGuardrailList, if_pos hg, hv] at hx
        exact Or.inr hx
      | some v =>
        simp only [addGuardrailList, if_pos hg, hv] at hx
        rcases List.mem_cons.1 hx with h | h
        · exact Or.inl h
        · exact Or.inr (List.mem_cons_of_mem g h)
    · simp only [addGuardrailList, if_neg hg] at hx
      rcases List.mem_cons.1 hx with h | h
      · exact Or.inr (h ▸ List.mem_cons_self g gs)
      · rcases ih x h with h' | h'
        · exact Or.inl h'
        · exact Or.inr (List.mem_cons_of_mem g h')

theorem nodup_ids_addGuardrailList (parse : String → String × Option String) (u : String) :
    ∀ l : List String, (guardrailIds parse l).Nodup →
      (guardrailIds parse (addGuardrailList parse u l).1).Nodup := by
  intro l
  induction l with
  | nil => intro h; simp [addGuardrailList, guardrailIds]
  | cons g gs ih =>
    intro h
    simp only [guardrailIds, List.map_cons, List.nodup_cons] at h
    obtain ⟨hnotmem, hnodup⟩ := h
    by_cases hg : (parse g).1 = (parse u).1
    · cases hv : (parse u).2 with
      | none =>
        simp only [addGuardrailList, if_pos hg, hv, guardrailIds, List.map_cons,
          List.nodup_cons]
        exact ⟨hnotmem, hnodup⟩
      | some v =>
        simp only [addGuardrailList, if_pos hg, hv, guardrailIds, List.map_cons,
          List.nodup_cons]
        refine ⟨?_, hnodup⟩
        rw [← hg]
        simpa [guardrailIds] using hnotmem
    · simp only [addGuardrailList, if_neg hg, guardrailIds, List.map_cons, List.nodup_cons]
      refine ⟨?_, ih hnodup⟩
      intro hmem
      simp only [guardrailIds, List.mem_map] at hmem
      obtain ⟨x, hx, hxid⟩ := hmem
      rcases mem_addGuardrailList_fst parse u gs x hx with rfl | hxgs
      · exact hg hxid.symm
      · exact hnotmem (List.mem_map.2 ⟨x, hxgs, hxid⟩)

theorem removeGuardrailList_sublist (parse : String → String × Option String) (u : String) :
    ∀ l : List String, (removeGuardrailList parse u l).Sublist l := by
  intro l
  induction l with
  | nil => simp [removeGuardrailList]
  | cons g gs ih =>
    by_cases hg : (parse g).1 = (parse u).1
    · simp only [removeGuardrailList, if_pos hg]
      exact List.sublist_cons_of_sublist g (List.Sublist.refl gs)
    · simp only [removeGuardrailList, if_neg hg]
      exact List.Sublist.cons₂ g ih

/-- C1: `add_guardrail` replaces the full URI of the first entry whose
parsed identifier equals the added URI's identifier and returns the added
URI when a version is present; leaves that entry untouched and returns
the existing entry's URI when the version is absent; and when no entry
matches, appends the added URI (creating the guardrails array in the
project table when it is absent) and returns it. -/
theorem add_guardrail_correct (parse : String → String × Option String) (u : String)
    (t : GuardTable) :
    (∀ i (hi : i < (t.guardrails.getD []).length),
        (parse ((t.guardrails.getD []).get ⟨i, hi⟩)).1 = (parse u).1 →
        (∀ g ∈ (t.guardrails.getD []).take i, (parse g).1 ≠ (parse u).1) →
        (((parse u).2.isSome = true →
            addGuardrail parse u t =
              ({ name := t.name, guardrails := some ((t.guardrails.getD []).set i u) }, u)) ∧
          ((parse u).2 = none →
            addGuardrail parse u t =
              ({ name := t.name, guardrails := some (t.guardrails.getD []) },
                (t.guardrails.getD []).get ⟨i, hi⟩))))
    ∧ ((∀ g ∈ t.guardrails.getD [], (parse g).1 ≠ (parse u).1) →
        addGuardrail parse u t =
          ({ name := t.name, guardrails := some ((t.guardrails.getD []) ++ [u]) }, u)) := by
  constructor
  · intro i hi hmatch hbefore
    obtain ⟨hs, hn⟩ :=
      addGuardrailList_replace parse u (t.guardrails.getD []) i hi hmatch hbefore
    constructor
    · intro hver
      rw [addGuardrail_eq, hs hver]
    · intro hnone
      rw [addGuardrail_eq, hn hnone]
  · intro hall
    rw [addGuardrail_eq, addGuardrailList_append parse u _ hall]

theorem add_guardrail_correct_witness :
    addGuardrail parseReference ("hub://ns/x:v2")
        { name := some ("p"), guardrails := some (["hub://a", "hub://ns/x:v1"]) } =
      ({ name := some ("p"), guardrails := some (["hub://a", "hub://ns/x:v2"]) },
        "hub://ns/x:v2") ∧
    addGuardrail parseReference ("hub://ns/x")
        { name := some ("p"), guardrails := some (["hub://a", "hub://ns/x:v1"]) } =
      ({ name := some ("p"), guardrails := some (["hub://a", "hub://ns/x:v1"]) },
        "hub://ns/x:v1") ∧
    addGuardrail parseReference ("hub://new")
        { name := some ("p"), guardrails := some (["hub://a", "hub://ns/x:v1"]) } =
      ({ name := some ("p"),
         guardrails := some (["hub://a", "hub://ns/x:v1", "hub://new"]) },
        "hub://new") := by
  refine ⟨?_, ?_, ?_⟩
  · exact (((add_guardrail_correct parseReference ("hub://ns/x:v2")
      { name := some ("p"), guardrails := some (["hub://a", "hub://ns/x:v1"]) }).1
      1 (by decide) (by decide) (by decide)).1 (by decide)).trans (by decide)
  · exact (((add_guardrail_correct parseReference ("hub://ns/x")
      { name := some ("p"), guardrails := some (["hub://a", "hub://ns/x:v1"]) }).1
      1 (by decide) (by decide) (by decide)).2 (by decide)).trans (by decide)
  · exact ((add_guardrail_correct parseReference ("hub://new")
      { name := some ("p"), guardrails := some (["hub://a", "hub://ns/x:v1"]) }).2
      (by decide)).trans (by decide)

/-- C7: `remove_guardrail` removes exactly the first entry whose parsed
identifier equals the given URI's identifier (versions are ignored for
matching), and when no entry matches it raises no error and leaves the
list unchanged — in particular its length is unchanged. -/
theorem remove_guardrail_correct (parse : String → String × Option String) (u : String)
    (t : GuardTable) :
    (∀ i (hi : i < (t.guardrails.getD []).length),
        (parse ((t.guardrails.getD []).get ⟨i, hi⟩)).1 = (parse u).1 →
        (∀ g ∈ (t.guardrails.getD []).take i, (parse g).1 ≠ (parse u).1) →
        removeGuardrail parse u t =
          { name := t.name, guardrails := some ((t.guardrails.getD []).eraseIdx i) })
    ∧ ((∀ g ∈ t.guardrails.getD [], (parse g).1 ≠ (parse u).1) →
        removeGuardrail parse u t =
            { name := t.name, guardrails := some (t.guardrails.getD []) } ∧
          ((removeGuardrail parse u t).guardrails.getD []).length =
            (t.guardrails.getD []).length) := by
  constructor
  · intro i hi hmatch hbefore
    rw [removeGuardrail_eq,
      removeGuardrailList_erase parse u (t.guardrails.getD []) i hi hmatch hbefore]
  · intro hall
    have heq := removeGuardrailList_no_match parse u (t.guardrails.getD []) hall
    constructor
    · rw [removeGuardrail_eq, heq]
    · simp [removeGuardrail_eq, heq]

theorem remove_guardrail_correct_witness :
    removeGuardrail parseReference ("hub://ns/x")
        { name := some ("p"),
          guardrails := some (["hub://a", "hub://ns/x:v1", "hub://ns/x:v9"]) } =
      { name := some ("p"), guardrails := some (["hub://a", "hub://ns/x:v9"]) } ∧
    removeGuardrail parseReference ("hub://ghost")
        { name := some ("p"), guardrails := some (["hub://a"]) } =
      { name := some ("p"), guardrails := some (["hub://a"]) } := by
  refine ⟨?_, ?_⟩
  · exact ((remove_guardrail_correct parseReference ("hub://ns/x")
      { name := some ("p"),
        guardrails := some (["hub://a", "hub://ns/x:v1", "hub://ns/x:v9"]) }).1
      1 (by decide) (by decide) (by decide)).trans (by decide)
  · exact ((remove_guardrail_correct parseReference ("hub://ghost")
      { name := some ("p"), guardrails := some (["hub://a"]) }).2 (by decide)).1

/-- C6: if the entries of a manifest's guardrails list have pairwise
distinct parsed identifiers, then after any `add_guardrail` or
`remove_guardrail` call the identifiers are still pairwise distinct — at
most one entry per identifier ever exists. -/
theorem guardrail_identifier_uniqueness (parse : String → String × Option String)
    (u : String) (t : GuardTable)
    (h : (guardrailIds parse (t.guardrails.getD [])).Nodup) :
    (guardrailIds parse (((addGuardrail parse u t).1).guardrails.getD [])).Nodup ∧
      (guardrailIds parse ((removeGuardrail parse u t).guardrails.getD [])).Nodup := by
  constructor
  · rw [addGuardrail_eq]
    simpa using nodup_ids_addGuardrailList parse u (t.guardrails.getD []) h
  · rw [removeGuardrail_eq]
    have hsub :=
      (removeGuardrailList_sublist parse u (t.guardrails.getD [])).map
        (fun g => (parse g).1)
    simpa [guardrailIds] using List.Nodup.sublist hsub (by simpa [guardrailIds] using h)

theorem guardrail_identifier_uniqueness_witness :
    (guardrailIds parseReference
        (((addGuardrail parseReference ("hub://ns/x:v2")
            { name := some ("p"),
              guardrails := some (["hub://a", "hub://ns/x:v1"]) }).1).guardrails.getD
          [])).Nodup ∧
      (guardrailIds parseReference
        ((removeGuardrail parseReference ("hub://ns/x:v2")
            { name := some ("p"),
              guardrails := some (["hub://a", "hub://ns/x:v1"]) }).guardrails.getD
          [])).Nodup :=
  guardrail_identifier_uniqueness parseReference ("hub://ns/x:v2")
    { name := some ("p"), guardrails := some (["hub://a", "hub://ns/x:v1"]) } (by decide)

/-- C9: on a manifest whose project table has no guardrails key, a
`remove_guardrail` call — whatever its URI, even one matching nothing —
inserts an empty guardrails array into the project table, so the
logically no-op removal still changes the document. -/
theorem remove_guardrail_creates_key (parse : String → String × Option String)
    (u : String) (t : GuardTable) (h : t.guardrails = none) :
    (removeGuardrail parse u t).guardrails = some [] ∧ removeGuardrail parse u t ≠ t := by
  cases t with
  | mk nm gr =>
    cases gr with
    | none =>
      refine ⟨rfl, fun heq => ?_⟩
      have hfield := congrArg GuardTable.guardrails heq
      simp [removeGuardrail, mutableGuardrailsArray, removeGuardrailList] at hfield
    | some gs => exact Option.noConfusion h

theorem remove_guardrail_creates_key_witness :
    (removeGuardrail parseReference ("hub://ghost")
        { name := some ("p"), guardrails := none }).guardrails = some [] ∧
      removeGuardrail parseReference ("hub://ghost")
          { name := some ("p"), guardrails := none } ≠
        { name := some ("p"), guardrails := none } :=
  remove_guardrail_creates_key parseReference ("hub://ghost")
    { name := some ("p"), guardrails := none } rfl

/-- C2 counterexample: with the guardrails key bound to the integer 5 —
not an array of strings — `local_guardrails` returns the empty list and
does not fail with a `TypeMismatch` error, refuting the claimed error
behaviour. -/
theorem local_guardrails_no_error_cex :
    localGuardrails [("guardrails", TomlValue.int 5)] = Except.ok [] ∧
      localGuardrails [("guardrails", TomlValue.int 5)] ≠
        Except.error TomlError.typeMismatch :=
  ⟨rfl, fun h => nomatch h⟩

/-- C2 (amended): `local_guardrails` returns the literal contents of the
project table's guardrails array, the empty sequence when the key is
absent, and also the empty sequence — never a `TypeMismatch` error —
when the key exists but its value is not an array; element types are
never inspected. -/
theorem local_guardrails_lenient (tbl : List (String × TomlValue)) :
    (tbl.lookup ("guardrails") = none → localGuardrails tbl = Except.ok [])
  ∧ (∀ l, tbl.lookup ("guardrails") = some (TomlValue.arr l) →
      localGuardrails tbl = Except.ok l)
  ∧ (∀ v, tbl.lookup ("guardrails") = some v → (∀ l, v ≠ TomlValue.arr l) →
      localGuardrails tbl = Except.ok []) := by
  refine ⟨fun h => ?_, fun l h => ?_, fun v h hne => ?_⟩
  · simp [localGuardrails, h]
  · simp [localGuardrails, h]
  · cases v with
    | str s => simp [localGuardrails, h]
    | int n => simp [localGuardrails, h]
    | boolean b => simp [localGuardrails, h]
    | arr l => exact absurd rfl (hne l)
    | table kvs => simp [localGuardrails, h]

theorem local_guardrails_lenient_witness :
    localGuardrails [("name", TomlValue.str ("p"))] = Except.ok [] ∧
      localGuardrails [("guardrails", TomlValue.arr [TomlValue.str ("hub://a")])] =
        Except.ok [TomlValue.str ("hub://a")] ∧
      localGuardrails [("guardrails", TomlValue.boolean true)] = Except.ok [] := by
  refine ⟨?_, ?_, ?_⟩
  · exact (local_guardrails_lenient [("name", TomlValue.str ("p"))]).1 rfl
  · exact (local_guardrails_lenient
      [("guardrails", TomlValue.arr [TomlValue.str ("hub://a")])]).2.1
      [TomlValue.str ("hub://a")] rfl
  · exact (local_guardrails_lenient [("guardrails", TomlValue.boolean true)]).2.2
      (TomlValue.boolean true) rfl (fun l h => nomatch h)

/-- C4 counterexample: a non-root node declaring the empty string as its
project name, with that name listed in `excludePackages` and
`includeAll` set, is still included — the exclusion check does not fire
because Python truthiness skips it for falsy names, refuting the claim
that a name in `excludePackages` always yields false. -/
theorem should_include_self_empty_name_cex :
    ("" ∈ ([""] : List String)) ∧
      shouldIncludeSelf
        { readOnly := false, includeAll := true, includePackages := [],
          excludePackages := [""], includeProject := true, isRoot := false }
        (some ("")) = true := by
  exact ⟨by decide, by decide⟩

/-- C4 (amended): `should_include_self` returns false whenever the
declared project name is non-empty and in `excludePackages` (checked
first); otherwise a root node returns `includeProject`, and a non-root
node returns true exactly when `includeAll` is set or the name is
non-empty and in `includePackages`. -/
theorem should_include_self_truthy (m : Manager) (name : Option String) :
    (truthyName name = true → m.excludePackages.contains (name.getD ("")) = true →
        shouldIncludeSelf m name = false)
  ∧ (¬(truthyName name = true ∧ m.excludePackages.contains (name.getD ("")) = true) →
      (m.isRoot = true → shouldIncludeSelf m name = m.includeProject)
      ∧ (m.isRoot = false →
          shouldIncludeSelf m name =
            (m.includeAll ||
              (truthyName name && m.includePackages.contains (name.getD ("")))))) := by
  constructor
  · intro h1 h2
    simp only [shouldIncludeSelf]
    rw [h1, h2]
    rfl
  · intro hnot
    have hcond :
        (truthyName name && m.excludePackages.contains (name.getD (""))) = false := by
      cases h : truthyName name with
      | false => rfl
      | true =>
        cases h2 : m.excludePackages.contains (name.getD ("")) with
        | false => rfl
        | true => exact absurd ⟨h, h2⟩ hnot
    constructor
    · intro hr
      simp only [shouldIncludeSelf]
      rw [hcond, hr]
      rfl
    · intro hr
      simp only [shouldIncludeSelf]
      rw [hcond, hr]
      cases hall : m.includeAll with
      | false => rfl
      | true => rfl

theorem should_include_self_truthy_witness :
    shouldIncludeSelf
        { readOnly := false, includeAll := true, includePackages := [],
          excludePackages := ["x"], includeProject := true, isRoot := false }
        (some ("x")) = false ∧
      shouldIncludeSelf
        { readOnly := false, includeAll := false, includePackages := ["a"],
          excludePackages := [], includeProject := true, isRoot := true }
        (some ("a")) = true ∧
      shouldIncludeSelf
        { readOnly := false, includeAll := false, includePackages := ["a"],
          excludePackages := [], includeProject := false, isRoot := false }
        (some ("a")) = true := by
  refine ⟨?_, ?_, ?_⟩
  · exact (should_include_self_truthy
      { readOnly := false, includeAll := true, includePackages := [],
        excludePackages := ["x"], includeProject := true, isRoot := false }
      (some ("x"))).1 (by decide) (by decide)
  · exact (((should_include_self_truthy
      { readOnly := false, includeAll := false, includePackages := ["a"],
        excludePackages := [], includeProject := true, isRoot := true }
      (some ("a"))).2 (by decide)).1 (by decide)).trans (by decide)
  · exact (((should_include_self_truthy
      { readOnly := false, includeAll := false, includePackages := ["a"],
        excludePackages := [], includeProject := false, isRoot := false }
      (some ("a"))).2 (by decide)).2 (by decide)).trans (by decide)

/-- C10: a non-root node whose project table lacks a name entry, or
whose name is the empty string, is never affected by `includePackages`
or `excludePackages` — its inclusion equals the `includeAll` flag for
every filter configuration. -/
theorem nameless_member_follows_include_all (m : Manager) (name : Option String)
    (hroot : m.isRoot = false) (hname : name = none ∨ name = some ("")) :
    shouldIncludeSelf m name = m.includeAll := by
  have ht : truthyName name = false := by
    rcases hname with rfl | rfl
    · rfl
    · decide
  cases hall : m.includeAll with
  | false => simp [shouldIncludeSelf, ht, hroot, hall]
  | true => simp [shouldIncludeSelf, ht, hroot, hall]

theorem nameless_member_follows_include_all_witness :
    shouldIncludeSelf
        { readOnly := true, includeAll := true, includePackages := ["pkg-a"],
          excludePackages := [""], includeProject := false, isRoot := false }
        none = true ∧
      shouldIncludeSelf
        { readOnly := true, includeAll := false, includePackages := [""],
          excludePackages := [], includeProject := true, isRoot := false }
        (some ("")) = false :=
  ⟨nameless_member_follows_include_all
      { readOnly := true, includeAll := true, includePackages := ["pkg-a"],
        excludePackages := [""], includeProject := false, isRoot := false }
      none rfl (Or.inl rfl),
    nameless_member_follows_include_all
      { readOnly := true, includeAll := false, includePackages := [""],
        excludePackages := [], includeProject := true, isRoot := false }
      (some ("")) rfl (Or.inr rfl)⟩

/-- C5: exiting a read-only session, or any session with a pending
error, performs no write to the manifest file regardless of in-memory
mutations; only a normal exit of a write-capable session writes the
document back. -/
theorem exit_session_no_write {Doc Disk : Type} (dump : Doc → Disk)
    (excPending ro : Bool) (doc : Doc) (disk : Disk) :
    (ro = true → exitSession dump excPending ro doc disk = disk)
  ∧ (excPending = true → exitSession dump excPending ro doc disk = disk)
  ∧ (excPending = false → ro = false →
      exitSession dump excPending ro doc disk = dump doc) := by
  refine ⟨fun h => ?_, fun h => ?_, fun h1 h2 => ?_⟩
  · simp [exitSession, h]
  · simp [exitSession, h]
  · simp [exitSession, h1, h2]

theorem exit_session_no_write_witness :
    exitSession Nat.succ false true 7 3 = 3 ∧
      exitSession Nat.succ true false 7 3 = 3 ∧
      exitSession Nat.succ false false 7 3 = Nat.succ 7 :=
  ⟨(exit_session_no_write Nat.succ false true 7 3).1 rfl,
    (exit_session_no_write Nat.succ true false 7 3).2.1 rfl,
    (exit_session_no_write Nat.succ false false 7 3).2.2 rfl rfl⟩

/-- The pkg-a member manifest of the test workspace: name "pkg-a",
guardrails `["hub://pkg-a-guard"]`, no members of its own. -/
def pkgA : WTree := WTree.node (some ("pkg-a")) ["hub://pkg-a-guard"] WForest.nil

/-- The pkg-b member manifest of the test workspace: name "pkg-b",
guardrails `["hub://pkg-b-guard"]`, no members of its own. -/
def pkgB : WTree := WTree.node (some ("pkg-b")) ["hub://pkg-b-guard"] WForest.nil

/-- The root manifest of the test workspace: name "root-project",
guardrails `["hub://root-guard"]`, members pkg-a and pkg-b. -/
def rootWorkspace : WTree :=
  WTree.node (some ("root-project")) ["hub://root-guard"]
    (WForest.cons pkgA (WForest.cons pkgB WForest.nil))

/-- A root `ProjectManager` for a given filter configuration, as the CLI
layer would construct it (write-capable, `_is_root=True`). -/
def rootManager (incAll : Bool) (incPkgs excPkgs : List String)
    (incProj : Bool) : Manager :=
  { readOnly := false
    includeAll := incAll
    includePackages := incPkgs
    excludePackages := excPkgs
    includeProject := incProj
    isRoot := true }

/-- C3: on the workspace with root guardrail root-guard and members
pkg-a and pkg-b, the aggregated guardrail set is: only root-guard under
default filters; all three under `includeAll`; root-guard and
pkg-a-guard under `includePackages=["pkg-a"]`; the two member guardrails
under `includeProject=false` with `includeAll`; and root-guard and
pkg-a-guard under `includeAll` with `excludePackages=["pkg-b"]`. -/
theorem workspace_scenario_aggregation :
    aggregateGuardrails (rootManager false [] [] true) rootWorkspace =
        ({"hub://root-guard"} : Finset String) ∧
      aggregateGuardrails (rootManager true [] [] true) rootWorkspace =
        ({"hub://root-guard", "hub://pkg-a-guard", "hub://pkg-b-guard"} :
          Finset String) ∧
      aggregateGuardrails (rootManager false ["pkg-a"] [] true) rootWorkspace =
        ({"hub://root-guard", "hub://pkg-a-guard"} : Finset String) ∧
      aggregateGuardrails (rootManager true [] [] false) rootWorkspace =
        ({"hub://pkg-a-guard", "hub://pkg-b-guard"} : Finset String) ∧
      aggregateGuardrails (rootManager true [] ["pkg-b"] true) rootWorkspace =
        ({"hub://root-guard", "hub://pkg-a-guard"} : Finset String) := by
  refine ⟨?_, ?_, ?_, ?_, ?_⟩ <;> decide

mutual
theorem sessionTrace_all (m : Manager) :
    ∀ (t : WTree) (x : Manager), x ∈ sessionTrace m t → x = childManager m
  | WTree.node _ _ children => fun x hx =>
    forestTrace_all (childManager m) rfl children x hx
theorem forestTrace_all (c : Manager) (hc : childManager c = c) :
    ∀ (f : WForest) (x : Manager), x ∈ forestTrace c f → x = c
  | WForest.nil => fun x hx => absurd hx (List.not_mem_nil x)
  | WForest.cons t ts => fun x hx => by
    rw [forestTrace] at hx
    rcases List.mem_append.1 hx with h1 | h2
    · rcases List.mem_cons.1 h1 with h0 | h3
      · exact h0
      · exact (sessionTrace_all c t x h3).trans hc
    · exact forestTrace_all c hc ts x h2
end

/-- C8: every `ProjectManager` constructed during the workspace
recursion of the `guardrails` property is read-only and non-root, and
carries exactly the invocation's original `includeAll`,
`includePackages`, `excludePackages` and `includeProject` values — the
filters are inherited verbatim down the whole tree. -/
theorem recursion_read_only_and_filters_inherited (m : Manager) (t : WTree)
    (x : Manager) (hx : x ∈ sessionTrace m t) :
    x.readOnly = true ∧ x.isRoot = false ∧ x.includeAll = m.includeAll ∧
      x.includePackages = m.includePackages ∧
      x.excludePackages = m.excludePackages ∧
      x.includeProject = m.includeProject := by
  have h := sessionTrace_all m t x hx
  subst h
  exact ⟨rfl, rfl, rfl, rfl, rfl, rfl⟩

theorem recursion_read_only_and_filters_inherited_witness :
    (childManager (rootManager true ["pkg-a"] ["pkg-b"] true)).readOnly = true ∧
      (childManager (rootManager true ["pkg-a"] ["pkg-b"] true)).isRoot = false ∧
      (childManager (rootManager true ["pkg-a"] ["pkg-b"] true)).includeAll =
        (rootManager true ["pkg-a"] ["pkg-b"] true).includeAll ∧
      (childManager (rootManager true ["pkg-a"] ["pkg-b"] true)).includePackages =
        (rootManager true ["pkg-a"] ["pkg-b"] true).includePackages ∧
      (childManager (rootManager true ["pkg-a"] ["pkg-b"] true)).excludePackages =
        (rootManager true ["pkg-a"] ["pkg-b"] true).excludePackages ∧
      (childManager (rootManager true ["pkg-a"] ["pkg-b"] true)).includeProject =
        (rootManager true ["pkg-a"] ["pkg-b"] true).includeProject :=
  recursion_read_only_and_filters_inherited
    (rootManager true ["pkg-a"] ["pkg-b"] true) rootWorkspace
    (childManager (rootManager true ["pkg-a"] ["pkg-b"] true)) (by decide)
